import Mathlib

/-
Verification of the reputation-ledger core of the bestgradez bot.

The Python sources model Firestore documents as nested dicts.  Python dicts
are insertion-ordered key-value maps, which we embed as association lists:
lookup returns the first binding of a key, update-in-place keeps the binding
at its original position, and inserting a fresh key appends it at the end.
Python integers are embedded as Int; Firestore document stores are embedded
as explicit `Store` values threaded through the operations.
-/

namespace RepBot

/-- Lookup in an insertion-ordered dict (Python `d[k]` / `d.get(k)`). -/
def dlookup {κ α : Type} [DecidableEq κ] : List (κ × α) → κ → Option α
  | [], _ => none
  | (k1, v) :: rest, k => if k1 = k then some v else dlookup rest k

/-- Update in an insertion-ordered dict (Python `d[k] = v`): an existing key
keeps its position, a fresh key is appended at the end. -/
def dinsert {κ α : Type} [DecidableEq κ] (k : κ) (v : α) : List (κ × α) → List (κ × α)
  | [] => [(k, v)]
  | (k1, v1) :: rest => if k1 = k then (k, v) :: rest else (k1, v1) :: dinsert k v rest

@[simp] theorem dlookup_nil {κ α : Type} [DecidableEq κ] (k : κ) :
    dlookup ([] : List (κ × α)) k = none := rfl

@[simp] theorem dlookup_cons {κ α : Type} [DecidableEq κ] (k1 k : κ) (v : α) (rest : List (κ × α)) :
    dlookup ((k1, v) :: rest) k = if k1 = k then some v else dlookup rest k := rfl

@[simp] theorem dlookup_dinsert_self {κ α : Type} [DecidableEq κ] (k : κ) (v : α)
    (d : List (κ × α)) : dlookup (dinsert k v d) k = some v := by
  induction d with
  | nil => simp [dinsert]
  | cons hd tl ih =>
    obtain ⟨k1, v1⟩ := hd
    by_cases h : k1 = k <;> simp [dinsert, h, ih]

@[simp] theorem dlookup_dinsert_ne {κ α : Type} [DecidableEq κ] (k k' : κ) (v : α)
    (d : List (κ × α)) (h : k ≠ k') : dlookup (dinsert k v d) k' = dlookup d k' := by
  induction d with
  | nil => simp [dinsert, h]
  | cons hd tl ih =>
    obtain ⟨k1, v1⟩ := hd
    by_cases h1 : k1 = k
    · subst h1
      simp [dinsert, h]
    · simp [dinsert, h1]
      split <;> simp [ih]

/-- Per-channel entry inside a user reputation document
(`channels[channel_id] = {name, count}`). -/
structure ChannelEntry where
  name : String
  count : Int
deriving DecidableEq, Repr

/-- A document of the `reps` collection (UserReputationRecord). -/
structure UserRec where
  guild_id : String
  user_id : String
  count : Int
  channels : List (String × ChannelEntry)
  given_by : List (String × Int)
deriving DecidableEq, Repr

/-- A document of the `channels` collection (ChannelActivityRecord). -/
structure ChannelRec where
  guild_id : String
  channel_id : String
  channel_name : String
  users : List (String × Int)
  total_reps : Int
deriving DecidableEq, Repr

/-- The backing store: the `reps` and `channels` Firestore collections,
keyed by their document ids. -/
structure Store where
  reps : List (String × UserRec)
  channels : List (String × ChannelRec)
deriving DecidableEq, Repr

/-- Document id of a user record: Python f-string `"{guild_id}_{user_id}"`. -/
def user_doc_id (guild_id user_id : String) : String :=
  guild_id ++ "_" ++ user_id

/-- Document id of a channel record: Python f-string `"{guild_id}_{channel_id}"`. -/
def channel_doc_id (guild_id channel_id : String) : String :=
  guild_id ++ "_" ++ channel_id

/-- The read phase of `give_rep` on the user document: `user_ref.get()`
(src/main.py line 130, outside any transaction). -/
def give_rep_read_user (s : Store) (guild_id user_id : String) : Option UserRec :=
  dlookup s.reps (user_doc_id guild_id user_id)

/-- The new user document computed by `give_rep` from the snapshot it read
(src/main.py lines 132-170 and the identical transactional body in
src/utils/firebase-manager.py lines 45-85). -/
def give_rep_user_update (snapshot : Option UserRec)
    (guild_id user_id channel_id channel_name given_by : String) : UserRec :=
  match snapshot with
  | none =>
      { guild_id := guild_id, user_id := user_id, count := 1,
        channels := [(channel_id, { name := channel_name, count := 1 })],
        given_by := [(given_by, 1)] }
  | some user_data =>
      let new_count := user_data.count + 1
      let channels :=
        match dlookup user_data.channels channel_id with
        | some entry =>
            dinsert channel_id { name := channel_name, count := entry.count + 1 }
              user_data.channels
        | none => dinsert channel_id { name := channel_name, count := 1 } user_data.channels
      let given_by_dict :=
        match dlookup user_data.given_by given_by with
        | some n => dinsert given_by (n + 1) user_data.given_by
        | none => dinsert given_by 1 user_data.given_by
      { user_data with count := new_count, channels := channels, given_by := given_by_dict }

/-- The write phase of `give_rep` on the user document (`set`/`update` at the
user document reference). -/
def give_rep_write_user (s : Store) (snapshot : Option UserRec)
    (guild_id user_id channel_id channel_name given_by : String) : Store :=
  { s with reps := (dinsert (user_doc_id guild_id user_id)
      (give_rep_user_update snapshot guild_id user_id channel_id channel_name given_by)
      s.reps) }

/-- The read phase of `give_rep` on the channel document: `channel_ref.get()`. -/
def give_rep_read_channel (s : Store) (guild_id channel_id : String) : Option ChannelRec :=
  dlookup s.channels (channel_doc_id guild_id channel_id)

/-- The new channel document computed by `give_rep` from the snapshot it read
(src/main.py lines 173-199, firebase-manager.py lines 88-115). -/
def give_rep_channel_update (snapshot : Option ChannelRec)
    (guild_id user_id channel_id channel_name : String) : ChannelRec :=
  match snapshot with
  | none =>
      { guild_id := guild_id, channel_id := channel_id, channel_name := channel_name,
        users := [(user_id, 1)], total_reps := 1 }
  | some channel_data =>
      let new_total := channel_data.total_reps + 1
      let users :=
        match dlookup channel_data.users user_id with
        | some n => dinsert user_id (n + 1) channel_data.users
        | none => dinsert user_id 1 channel_data.users
      { channel_data with
          channel_name := channel_name
          total_reps := new_total
          users := users }

/-- The write phase of `give_rep` on the channel document. -/
def give_rep_write_channel (s : Store) (snapshot : Option ChannelRec)
    (guild_id user_id channel_id channel_name : String) : Store :=
  { s with channels := (dinsert (channel_doc_id guild_id channel_id)
      (give_rep_channel_update snapshot guild_id user_id channel_id channel_name)
      s.channels) }

/-- Sequential (uninterleaved) execution of `give_rep`: read user doc, write
user doc, read channel doc, write channel doc, return True.  This is the
semantics of both src/main.py give_rep (lines 114-205) and, because Firestore
serializes conflicting transactions, of the transactional
firebase-manager.py give_rep (lines 18-125). -/
def give_rep (s : Store) (guild_id user_id channel_id channel_name given_by : String) :
    Store × Bool :=
  let s1 := give_rep_write_user s (give_rep_read_user s guild_id user_id)
    guild_id user_id channel_id channel_name given_by
  let s2 := give_rep_write_channel s1 (give_rep_read_channel s1 guild_id channel_id)
    guild_id user_id channel_id channel_name
  (s2, true)

/-- remove_rep (src/main.py lines 207-268, firebase-manager.py lines 127-198).
The optional `channel_id` mirrors Python truthiness: `if channel_id:` is
false both for None and for the empty string. -/
def remove_rep (s : Store) (guild_id user_id : String) (channel_id : Option String) :
    Store × Bool :=
  match dlookup s.reps (user_doc_id guild_id user_id) with
  | none => (s, false)
  | some user_data =>
    if user_data.count ≤ 0 then (s, false)
    else
      match channel_id with
      | none =>
        ({ s with reps := (dinsert (user_doc_id guild_id user_id)
            { user_data with count := max 0 (user_data.count - 1) } s.reps) }, true)
      | some cid =>
        if cid = "" then
          ({ s with reps := (dinsert (user_doc_id guild_id user_id)
              { user_data with count := max 0 (user_data.count - 1) } s.reps) }, true)
        else
          match dlookup user_data.channels cid with
          | none => (s, false)
          | some entry =>
            if entry.count ≤ 0 then (s, false)
            else
              let channels := dinsert cid { entry with count := max 0 (entry.count - 1) }
                user_data.channels
              let store_channels :=
                match dlookup s.channels (channel_doc_id guild_id cid) with
                | none => s.channels
                | some channel_data =>
                  match dlookup channel_data.users user_id with
                  | none => s.channels
                  | some n =>
                    if 0 < n then
                      dinsert (channel_doc_id guild_id cid)
                        { channel_data with
                            users := dinsert user_id (n - 1) channel_data.users
                            total_reps := max 0 (channel_data.total_reps - 1) } s.channels
                    else s.channels
              ({ reps := (dinsert (user_doc_id guild_id user_id)
                    { user_data with
                        count := max 0 (user_data.count - 1)
                        channels := channels } s.reps)
                 channels := store_channels }, true)

/-- get_user_profile (src/main.py lines 270-295): a zero-valued record when
the document is absent. -/
def get_user_profile (s : Store) (guild_id user_id : String) : UserRec :=
  match dlookup s.reps (user_doc_id guild_id user_id) with
  | none =>
      { guild_id := guild_id, user_id := user_id, count := 0, channels := [], given_by := [] }
  | some u => u

/-- Observable counter: the `count` field of a user record, 0 when absent. -/
def userCount (s : Store) (guild_id user_id : String) : Int :=
  match dlookup s.reps (user_doc_id guild_id user_id) with
  | none => 0
  | some u => u.count

/-- Observable counter: `channels[channel_id].count` of a user record, 0 when absent. -/
def userChannelCount (s : Store) (guild_id user_id channel_id : String) : Int :=
  match dlookup s.reps (user_doc_id guild_id user_id) with
  | none => 0
  | some u =>
    match dlookup u.channels channel_id with
    | none => 0
    | some e => e.count

/-- Observable counter: `users[user_id]` of a channel record, 0 when absent. -/
def channelUserCount (s : Store) (guild_id channel_id user_id : String) : Int :=
  match dlookup s.channels (channel_doc_id guild_id channel_id) with
  | none => 0
  | some c =>
    match dlookup c.users user_id with
    | none => 0
    | some n => n

/-- Observable counter: `total_reps` of a channel record, 0 when absent. -/
def channelTotalReps (s : Store) (guild_id channel_id : String) : Int :=
  match dlookup s.channels (channel_doc_id guild_id channel_id) with
  | none => 0
  | some c => c.total_reps

/-- Serialized execution of a batch of grants to one recipient: each triple is
(channel_id, channel_name, given_by).  This is the behaviour of the
transactional give_rep of firebase-manager.py, where Firestore serializes
conflicting read-modify-write transactions. -/
def applyGrants (s : Store) (guild_id user_id : String)
    (grants : List (String × String × String)) : Store :=
  grants.foldl (fun st a => (give_rep st guild_id user_id a.1 a.2.1 a.2.2).1) s

theorem give_rep_fst_reps (s : Store) (g u c cn gb : String) :
    ((give_rep s g u c cn gb).1).reps =
      dinsert (user_doc_id g u)
        (give_rep_user_update (give_rep_read_user s g u) g u c cn gb) s.reps := rfl

theorem userCount_give_rep (s : Store) (g u c cn gb : String) :
    userCount ((give_rep s g u c cn gb).1) g u = userCount s g u + 1 := by
  unfold userCount
  rw [give_rep_fst_reps, dlookup_dinsert_self]
  unfold give_rep_user_update give_rep_read_user
  cases h : dlookup s.reps (user_doc_id g u) <;> simp [h]

theorem userCount_applyGrants (s : Store) (g u : String)
    (grants : List (String × String × String)) :
    userCount (applyGrants s g u grants) g u = userCount s g u + grants.length := by
  induction grants generalizing s with
  | nil => simp [applyGrants]
  | cons a tl ih =>
    have h1 : applyGrants s g u (a :: tl) = applyGrants ((give_rep s g u a.1 a.2.1 a.2.2).1) g u tl := rfl
    rw [h1, ih, userCount_give_rep, List.length_cons]
    push_cast
    omega

/-- Interleaved run of two concurrent non-transactional grants from main.py:
both callers read the user document of ("g","u") from the empty store, then
both write their update, the second write clobbering the first.  Every
individual step is exactly main.py's give_rep read or write phase. -/
def lost_update_run : Store :=
  let s0 : Store := { reps := [], channels := [] }
  let snapA := give_rep_read_user s0 ("g") ("u")
  let snapB := give_rep_read_user s0 ("g") ("u")
  let s1 := give_rep_write_user s0 snapA ("g") ("u") ("c") ("general") ("giverA")
  give_rep_write_user s1 snapB ("g") ("u") ("c") ("general") ("giverB")

/-- C1: every grant call reports success, and under the serialized
(transactional) semantics of firebase-manager.py a batch of N grants to the
same (guild, user) adds exactly N to the recipient's count; but main.py's
give_rep performs the same read-modify-write outside any transaction, and the
interleaving in `lost_update_run` (two concurrent grants from distinct givers
against an empty store) leaves the final count at 1 instead of 0 + 2 — a lost
update, contradicting the claimed concurrent-grant safety. -/
theorem c1_grant_transaction_lost_update :
    (∀ s g u c cn gb, (give_rep s g u c cn gb).2 = true) ∧
    (∀ s g u grants, userCount (applyGrants s g u grants) g u
        = userCount s g u + grants.length) ∧
    userCount lost_update_run ("g") ("u") = 1 := by
  refine ⟨fun s g u c cn gb => rfl, fun s g u grants => userCount_applyGrants s g u grants, ?_⟩
  decide

/-- Serialized execution of a batch of revokes: each triple is
(guild_id, user_id, optional channel_id). -/
def applyRevokes (s : Store) (calls : List (String × String × Option String)) : Store :=
  calls.foldl (fun st a => (remove_rep st a.1 a.2.1 a.2.2).1) s

theorem remove_rep_reps_shape (s : Store) (g u : String) (c : Option String) :
    ((remove_rep s g u c).1).reps = s.reps ∨
    ∃ ud : UserRec, 0 ≤ ud.count ∧
      ((remove_rep s g u c).1).reps = dinsert (user_doc_id g u) ud s.reps := by
  unfold remove_rep
  split
  · exact Or.inl rfl
  split
  · exact Or.inl rfl
  split
  · exact Or.inr ⟨_, le_max_left _ _, rfl⟩
  split
  · exact Or.inr ⟨_, le_max_left _ _, rfl⟩
  split
  · exact Or.inl rfl
  split
  · exact Or.inl rfl
  · exact Or.inr ⟨_, le_max_left _ _, rfl⟩

theorem userCount_remove_rep_nonneg (s : Store) (g1 u1 : String) (c : Option String)
    (g u : String) (h : 0 ≤ userCount s g u) :
    0 ≤ userCount ((remove_rep s g1 u1 c).1) g u := by
  rcases remove_rep_reps_shape s g1 u1 c with hs | ⟨ud, hud, hs⟩
  · unfold userCount at h ⊢
    rw [hs]
    exact h
  · unfold userCount at h ⊢
    rw [hs]
    by_cases hk : user_doc_id g1 u1 = user_doc_id g u
    · rw [hk, dlookup_dinsert_self]
      exact hud
    · rw [dlookup_dinsert_ne _ _ _ _ hk]
      exact h

theorem userCount_applyRevokes_nonneg (s : Store) (g u : String)
    (h : 0 ≤ userCount s g u) (calls : List (String × String × Option String)) :
    0 ≤ userCount (applyRevokes s calls) g u := by
  induction calls generalizing s with
  | nil => exact h
  | cons a tl ih => exact ih _ (userCount_remove_rep_nonneg s a.1 a.2.1 a.2.2 g u h)

/-- C2: remove_rep fails (returns false and mutates nothing) when the
recipient's user record is absent, when its count is not positive, or — when
a (non-empty, hence truthy) channel_id is supplied — when the record's
channel entry is absent or its count is not positive; and any sequence of
revokes keeps a recipient's count non-negative. -/
theorem c2_remove_rep_failures_and_zero_floor :
    (∀ s g u c, dlookup s.reps (user_doc_id g u) = none → remove_rep s g u c = (s, false)) ∧
    (∀ s g u c user_data, dlookup s.reps (user_doc_id g u) = some user_data →
        user_data.count ≤ 0 → remove_rep s g u c = (s, false)) ∧
    (∀ s g u cid user_data, dlookup s.reps (user_doc_id g u) = some user_data → cid ≠ "" →
        (∀ e, dlookup user_data.channels cid = some e → e.count ≤ 0) →
        remove_rep s g u (some cid) = (s, false)) ∧
    (∀ s g u, 0 ≤ userCount s g u → ∀ calls,
        0 ≤ userCount (applyRevokes s calls) g u) := by
  refine ⟨?_, ?_, ?_, fun s g u h calls => userCount_applyRevokes_nonneg s g u h calls⟩
  · intro s g u c h
    unfold remove_rep
    rw [h]
  · intro s g u c user_data h hle
    unfold remove_rep
    rw [h]
    simp [hle]
  · intro s g u cid user_data h hcid hch
    unfold remove_rep
    rw [h]
    by_cases hle : user_data.count ≤ 0
    · simp [hle]
    · simp only [hle, if_false]
      cases hc : dlookup user_data.channels cid with
      | none => simp [hcid, hc]
      | some e => simp [hcid, hc, hch e hc]

/-- Witness for C2 at concrete inputs: a store holding one record for
("g","u") with count 0; revoking fails and leaves the store unchanged, and a
sequence of revokes keeps the count non-negative. -/
theorem c2_witness :
    (dlookup (Store.mk [] []).reps (user_doc_id ("g") ("u")) = none ∧
      remove_rep (Store.mk [] []) ("g") ("u") none = (Store.mk [] [], false)) ∧
    ((0 : Int) ≤ userCount (Store.mk [] []) ("g") ("u") ∧
      0 ≤ userCount (applyRevokes (Store.mk [] [])
        [(("g"), ("u"), none), (("g"), ("u"), some ("c"))]) ("g") ("u")) :=
  ⟨⟨by decide, c2_remove_rep_failures_and_zero_floor.1 (Store.mk [] []) ("g") ("u") none
      (by decide)⟩,
   ⟨by decide, c2_remove_rep_failures_and_zero_floor.2.2.2 (Store.mk [] []) ("g") ("u")
      (by decide) _⟩⟩

/-- Composition checked by C3: a grant followed by a revoke scoped to the same
channel. -/
def grant_then_revoke (s : Store) (guild_id user_id channel_id channel_name given_by : String) :
    Store :=
  (remove_rep ((give_rep s guild_id user_id channel_id channel_name given_by).1)
    guild_id user_id (some channel_id)).1

/-- C3: for a fresh (guild, user, channel) triple — no user record and no
channel record — grant followed by a same-channel revoke restores all four
observable counters (user count, user per-channel count, channel per-user
count, channel total) to their prior values, namely zero. -/
theorem c3_grant_revoke_inverse (s : Store) (g u c cn gb : String)
    (hu : dlookup s.reps (user_doc_id g u) = none)
    (hc : dlookup s.channels (channel_doc_id g c) = none)
    (hcid : c ≠ "") :
    userCount (grant_then_revoke s g u c cn gb) g u = userCount s g u ∧
    userChannelCount (grant_then_revoke s g u c cn gb) g u c = userChannelCount s g u c ∧
    channelUserCount (grant_then_revoke s g u c cn gb) g c u = channelUserCount s g c u ∧
    channelTotalReps (grant_then_revoke s g u c cn gb) g c = channelTotalReps s g c ∧
    userCount s g u = 0 ∧ userChannelCount s g u c = 0 ∧
    channelUserCount s g c u = 0 ∧ channelTotalReps s g c = 0 := by
  simp only [grant_then_revoke, give_rep, give_rep_read_user, give_rep_write_user,
    give_rep_user_update, give_rep_read_channel, give_rep_write_channel,
    give_rep_channel_update, remove_rep, userCount, userChannelCount,
    channelUserCount, channelTotalReps, hu, hc, hcid, dlookup_dinsert_self, dlookup_cons,
    dlookup_nil]
  norm_num

/-- Witness for C3: concrete fresh triple over the empty store. -/
theorem c3_witness :
    (dlookup (Store.mk [] []).reps (user_doc_id ("g") ("u")) = none ∧
      dlookup (Store.mk [] []).channels (channel_doc_id ("g") ("c")) = none ∧
      ("c" : String) ≠ "") ∧
    userCount (grant_then_revoke (Store.mk [] []) ("g") ("u") ("c") ("general") ("a"))
      ("g") ("u") = userCount (Store.mk [] []) ("g") ("u") :=
  ⟨⟨by decide, by decide, by decide⟩,
   (c3_grant_revoke_inverse (Store.mk [] []) ("g") ("u") ("c") ("general") ("a")
      (by decide) (by decide) (by decide)).1⟩

/-- C4: a successful revoke with channel_id omitted returns true, decrements
only the recipient's global count, and leaves the recipient's channels and
given_by mappings, every other user record, and the whole channels collection
unchanged. -/
theorem c4_revoke_without_channel_frame (s : Store) (g u : String) (user_data : UserRec)
    (h : dlookup s.reps (user_doc_id g u) = some user_data)
    (hpos : 0 < user_data.count) :
    (remove_rep s g u none).2 = true ∧
    userCount ((remove_rep s g u none).1) g u = userCount s g u - 1 ∧
    (get_user_profile ((remove_rep s g u none).1) g u).channels = user_data.channels ∧
    (get_user_profile ((remove_rep s g u none).1) g u).given_by = user_data.given_by ∧
    ((remove_rep s g u none).1).channels = s.channels ∧
    (∀ k, k ≠ user_doc_id g u →
      dlookup ((remove_rep s g u none).1).reps k = dlookup s.reps k) := by
  have hle : ¬ user_data.count ≤ 0 := by omega
  refine ⟨?_, ?_, ?_, ?_, ?_, ?_⟩
  · simp [remove_rep, h, hle]
  · simp only [remove_rep, h, hle, if_false, userCount, dlookup_dinsert_self]
    omega
  · simp [remove_rep, h, hle, get_user_profile, dlookup_dinsert_self]
  · simp [remove_rep, h, hle, get_user_profile, dlookup_dinsert_self]
  · simp [remove_rep, h, hle]
  · intro k hk
    simp only [remove_rep, h, hle, if_false]
    exact dlookup_dinsert_ne _ _ _ _ (fun he => hk he.symm)

/-- Witness for C4: a store holding one record for ("g","u") with count 2 and
a channel breakdown; the channel-omitted revoke decrements only the global
count. -/
theorem c4_witness :
    (dlookup (Store.mk [((user_doc_id ("g") ("u")),
        UserRec.mk ("g") ("u") 2 [(("c"), ChannelEntry.mk ("general") 2)] [(("a"), 2)])] []).reps
        (user_doc_id ("g") ("u")) =
      some (UserRec.mk ("g") ("u") 2 [(("c"), ChannelEntry.mk ("general") 2)] [(("a"), 2)]) ∧
      (0 : Int) < (UserRec.mk ("g") ("u") 2 [(("c"), ChannelEntry.mk ("general") 2)]
        [(("a"), 2)]).count) ∧
    (remove_rep (Store.mk [((user_doc_id ("g") ("u")),
        UserRec.mk ("g") ("u") 2 [(("c"), ChannelEntry.mk ("general") 2)] [(("a"), 2)])] [])
      ("g") ("u") none).2 = true :=
  ⟨⟨by decide, by decide⟩,
   (c4_revoke_without_channel_frame
      (Store.mk [((user_doc_id ("g") ("u")),
        UserRec.mk ("g") ("u") 2 [(("c"), ChannelEntry.mk ("general") 2)] [(("a"), 2)])] [])
      ("g") ("u")
      (UserRec.mk ("g") ("u") 2 [(("c"), ChannelEntry.mk ("general") 2)] [(("a"), 2)])
      (by decide) (by decide)).1⟩

/-- C9: when the user record's count and its channel entry's count are both
positive but the mirrored channel document is missing, or carries no positive
`users` entry for the recipient, a channel-scoped revoke still returns true
and decrements the user-side counters, while the channels collection is left
entirely unchanged — the two record families drift apart silently. -/
theorem c9_revoke_channel_mirror_drift (s : Store) (g u cid : String)
    (user_data : UserRec) (entry : ChannelEntry)
    (h : dlookup s.reps (user_doc_id g u) = some user_data)
    (hpos : 0 < user_data.count)
    (hch : dlookup user_data.channels cid = some entry)
    (hepos : 0 < entry.count)
    (hcid : cid ≠ "")
    (hmiss : ∀ cd, dlookup s.channels (channel_doc_id g cid) = some cd →
        ∀ n, dlookup cd.users u = some n → n ≤ 0) :
    (remove_rep s g u (some cid)).2 = true ∧
    userCount ((remove_rep s g u (some cid)).1) g u = user_data.count - 1 ∧
    userChannelCount ((remove_rep s g u (some cid)).1) g u cid = entry.count - 1 ∧
    ((remove_rep s g u (some cid)).1).channels = s.channels := by
  have hle : ¬ user_data.count ≤ 0 := by omega
  have hele : ¬ entry.count ≤ 0 := by omega
  have hchans : (match dlookup s.channels (channel_doc_id g cid) with
      | none => s.channels
      | some channel_data =>
        match dlookup channel_data.users u with
        | none => s.channels
        | some n =>
          if 0 < n then
            dinsert (channel_doc_id g cid)
              { channel_data with
                  users := dinsert u (n - 1) channel_data.users
                  total_reps := max 0 (channel_data.total_reps - 1) } s.channels
          else s.channels) = s.channels := by
    split
    · rfl
    · next channel_data heq =>
      split
      · rfl
      · next n hn =>
        exact if_neg (by have := hmiss channel_data heq n hn; omega)
  refine ⟨?_, ?_, ?_, ?_⟩
  · simp [remove_rep, h, hle, hcid, hch, hele]
  · simp only [remove_rep, h, hle, if_false, hcid, if_neg hcid, hch, hele,
      userCount, dlookup_dinsert_self]
    omega
  · simp only [remove_rep, h, hle, if_false, if_neg hcid, hch, hele,
      userChannelCount, dlookup_dinsert_self]
    omega
  · simp only [remove_rep, h, hle, if_false, if_neg hcid, hch, hele]
    exact hchans

/-- Witness for C9: the user record credits channel "c" with one point, but
the channels collection is empty; the channel-scoped revoke succeeds and the
channels collection stays empty. -/
theorem c9_witness :
    (dlookup (Store.mk [((user_doc_id ("g") ("u")),
        UserRec.mk ("g") ("u") 1 [(("c"), ChannelEntry.mk ("general") 1)] [(("a"), 1)])] []).reps
        (user_doc_id ("g") ("u")) =
      some (UserRec.mk ("g") ("u") 1 [(("c"), ChannelEntry.mk ("general") 1)] [(("a"), 1)])) ∧
    (remove_rep (Store.mk [((user_doc_id ("g") ("u")),
        UserRec.mk ("g") ("u") 1 [(("c"), ChannelEntry.mk ("general") 1)] [(("a"), 1)])] [])
      ("g") ("u") (some ("c"))).2 = true :=
  ⟨by decide,
   (c9_revoke_channel_mirror_drift
      (Store.mk [((user_doc_id ("g") ("u")),
        UserRec.mk ("g") ("u") 1 [(("c"), ChannelEntry.mk ("general") 1)] [(("a"), 1)])] [])
      ("g") ("u") ("c")
      (UserRec.mk ("g") ("u") 1 [(("c"), ChannelEntry.mk ("general") 1)] [(("a"), 1)])
      (ChannelEntry.mk ("general") 1)
      (by decide) (by decide) (by decide) (by decide) (by decide)
      (fun cd hcd => by simp at hcd)).1⟩

/-- Cooldown window: src/main.py line 41, `COOLDOWN_SECONDS = 60`. -/
def COOLDOWN_SECONDS : Int := 60

/-- Python `int()` applied to a float-valued elapsed time: truncation toward
zero.  Timestamps are modelled as rationals. -/
def pyint (q : ℚ) : Int := if q < 0 then ⌈q⌉ else ⌊q⌋

/-- is_on_cooldown (src/main.py lines 375-383).  The cooldown map and the
current clock reading `now` (datetime.now().timestamp()) are explicit
arguments. -/
def is_on_cooldown (rep_cooldowns : List (Nat × ℚ)) (now : ℚ) (user_id : Nat) : Bool :=
  match dlookup rep_cooldowns user_id with
  | none => false
  | some last_time => decide (now - last_time < (COOLDOWN_SECONDS : ℚ))

/-- get_cooldown_remaining (src/main.py lines 385-394):
`max(0, COOLDOWN_SECONDS - int(elapsed))`, 0 when the giver has no entry. -/
def get_cooldown_remaining (rep_cooldowns : List (Nat × ℚ)) (now : ℚ) (user_id : Nat) : Int :=
  match dlookup rep_cooldowns user_id with
  | none => 0
  | some last_time => max 0 (COOLDOWN_SECONDS - pyint (now - last_time))

/-- update_cooldown (src/main.py lines 396-398): overwrite the giver's
last-grant timestamp. -/
def update_cooldown (rep_cooldowns : List (Nat × ℚ)) (now : ℚ) (user_id : Nat) :
    List (Nat × ℚ) :=
  dinsert user_id now rep_cooldowns

theorem pyint_lt_of_pos (e : ℚ) (z : Int) (hz : 0 < z) : pyint e < z ↔ e < (z : ℚ) := by
  unfold pyint
  by_cases he : e < 0
  · rw [if_pos he]
    constructor
    · intro _
      exact he.trans (by exact_mod_cast hz)
    · intro _
      have hc : ⌈e⌉ ≤ (0 : Int) := Int.ceil_le.mpr (by exact_mod_cast he.le)
      exact lt_of_le_of_lt hc hz
  · rw [if_neg he]
    exact Int.floor_lt

/-- C6: immediately after update_cooldown(u, t0) the giver is on cooldown at
t0 + window - 1 and off cooldown at t0 + window; on-cooldown is the strict
comparison elapsed < window; and the remaining time is
max(0, window - elapsed) — zero for a giver who has never granted, and
exactly the claimed formula at every whole-second elapsed time. -/
theorem c6_cooldown_gate :
    (∀ (m : List (Nat × ℚ)) (u : Nat) (t0 : ℚ),
      is_on_cooldown (update_cooldown m t0 u) (t0 + (COOLDOWN_SECONDS : ℚ) - 1) u = true) ∧
    (∀ (m : List (Nat × ℚ)) (u : Nat) (t0 : ℚ),
      is_on_cooldown (update_cooldown m t0 u) (t0 + (COOLDOWN_SECONDS : ℚ)) u = false) ∧
    (∀ (m : List (Nat × ℚ)) (u : Nat) (now last : ℚ), dlookup m u = some last →
      (is_on_cooldown m now u = true ↔ now - last < (COOLDOWN_SECONDS : ℚ))) ∧
    (∀ (m : List (Nat × ℚ)) (u : Nat) (now : ℚ), dlookup m u = none →
      get_cooldown_remaining m now u = 0) ∧
    (∀ (m : List (Nat × ℚ)) (u : Nat) (last : ℚ) (k : Int), dlookup m u = some last →
      get_cooldown_remaining m (last + (k : ℚ)) u = max 0 (COOLDOWN_SECONDS - k)) := by
  refine ⟨?_, ?_, ?_, ?_, ?_⟩
  · intro m u t0
    simp only [is_on_cooldown, update_cooldown, dlookup_dinsert_self, decide_eq_true_eq]
    have h1 : t0 + (COOLDOWN_SECONDS : ℚ) - 1 - t0 = (COOLDOWN_SECONDS : ℚ) - 1 := by ring
    rw [h1]
    norm_num
  · intro m u t0
    simp only [is_on_cooldown, update_cooldown, dlookup_dinsert_self, decide_eq_false_iff_not]
    have h1 : t0 + (COOLDOWN_SECONDS : ℚ) - t0 = (COOLDOWN_SECONDS : ℚ) := by ring
    rw [h1]
    exact lt_irrefl _
  · intro m u now last h
    simp [is_on_cooldown, h]
  · intro m u now h
    simp [get_cooldown_remaining, h]
  · intro m u last k h
    simp only [get_cooldown_remaining, h]
    have h1 : last + (k : ℚ) - last = (k : ℚ) := by ring
    rw [h1]
    have h2 : pyint (k : ℚ) = k := by
      unfold pyint
      split
      · exact Int.ceil_intCast k
      · exact Int.floor_intCast k
    rw [h2]

/-- Counterexample for C6 as literally stated: at a fractional elapsed time
of 59.5 seconds the code returns max(0, 60 - int(59.5)) = 1, not
max(0, 60 - 59.5) = 1/2 — get_cooldown_remaining truncates the elapsed time
to whole seconds before subtracting. -/
theorem c6_counterexample :
    ¬ (((get_cooldown_remaining [((1 : Nat), (0 : ℚ))] (119/2) 1 : Int) : ℚ) =
        max 0 ((COOLDOWN_SECONDS : ℚ) - (119/2 - 0))) := by
  have h1 : get_cooldown_remaining [((1 : Nat), (0 : ℚ))] (119/2) 1 = 1 := by
    have h0 : dlookup [((1 : Nat), (0 : ℚ))] 1 = some (0 : ℚ) := by decide
    simp only [get_cooldown_remaining, h0, sub_zero, COOLDOWN_SECONDS, pyint]
    rw [if_neg (by norm_num), show ⌊(119 : ℚ)/2⌋ = 59 by norm_num]
    norm_num
  rw [h1]
  norm_num [COOLDOWN_SECONDS]

/-- Witness for C6 at concrete inputs: a single giver 1 who granted at time 0. -/
theorem c6_witness :
    dlookup [((1 : Nat), (0 : ℚ))] 1 = some 0 ∧
    (is_on_cooldown [((1 : Nat), (0 : ℚ))] 30 1 = true ↔
      (30 : ℚ) - 0 < (COOLDOWN_SECONDS : ℚ)) ∧
    get_cooldown_remaining [((1 : Nat), (0 : ℚ))] (0 + ((30 : Int) : ℚ)) 1 =
      max 0 (COOLDOWN_SECONDS - 30) :=
  ⟨by decide,
   c6_cooldown_gate.2.2.1 [((1 : Nat), (0 : ℚ))] 1 30 0 (by decide),
   c6_cooldown_gate.2.2.2.2 [((1 : Nat), (0 : ℚ))] 1 0 30 (by decide)⟩

/-- C10: with the same cooldown map and clock reading, is_on_cooldown is true
exactly when get_cooldown_remaining is positive — including absent entries
(false and 0) and despite the int() truncation inside the remaining-time
computation. -/
theorem c10_on_cooldown_iff_remaining_pos (m : List (Nat × ℚ)) (now : ℚ) (u : Nat) :
    is_on_cooldown m now u = true ↔ 0 < get_cooldown_remaining m now u := by
  unfold is_on_cooldown get_cooldown_remaining
  cases h : dlookup m u with
  | none => simp
  | some last =>
    simp only [decide_eq_true_eq, lt_max_iff, lt_self_iff_false, false_or, sub_pos]
    exact (pyint_lt_of_pos (now - last) COOLDOWN_SECONDS (by norm_num [COOLDOWN_SECONDS])).symm

/-- Rep trigger words (src/main.py line 75). -/
def rep_triggers : List String :=
  ["thanks", "ty", "tysm", "thank you", "appreciated", "thx"]

/-- Occurrence of `t` in `s` at position `p`:
the next `t.length` characters of `s` starting at `p` spell `t`. -/
def occursAt (s t : List Char) (p : Nat) : Prop :=
  (s.drop p).take t.length = t

instance (s t : List Char) (p : Nat) : Decidable (occursAt s t p) :=
  inferInstanceAs (Decidable ((s.drop p).take t.length = t))

/-- First occurrence index of `t` inside `hay` (Python str.find without a
start argument), as an option instead of the -1 sentinel. -/
def findIn (t : List Char) : List Char → Option Nat
  | [] => if t = [] then some 0 else none
  | ch :: rest =>
    if (ch :: rest).take t.length = t then some 0
    else (findIn t rest).map (fun n => n + 1)

/-- content_lower.find(trigger, start_pos) (src/main.py line 89): first
occurrence index at or after `start`. -/
def pyfind (s t : List Char) (start : Nat) : Option Nat :=
  (findIn t (s.drop start)).map (fun n => n + start)

/-- The check on the character before the occurrence
(src/main.py lines 94-98): start of string, whitespace, or non-alphanumeric. -/
def before_ok (s : List Char) (pos : Nat) : Bool :=
  match pos with
  | 0 => true
  | q + 1 =>
    match s[q]? with
    | some ch => ch.isWhitespace || !ch.isAlphanum
    | none => true

/-- The check on the character after the occurrence
(src/main.py lines 95-101): end of string, whitespace, or non-alphanumeric. -/
def after_ok (s t : List Char) (pos : Nat) : Bool :=
  if s.length ≤ pos + t.length then true
  else
    match s[pos + t.length]? with
    | some ch => ch.isWhitespace || !ch.isAlphanum
    | none => true

/-- The per-trigger occurrence loop of src/main.py lines 85-108: find the
next occurrence from start_pos, return true if it stands alone, otherwise
continue from pos + 1.  The fuel argument (instantiated with
s.length + 1, an upper bound on the number of loop iterations) makes the
advancing cursor structurally decreasing. -/
def trigger_loop (s t : List Char) : Nat → Nat → Bool
  | _, 0 => false
  | start, fuel + 1 =>
    match pyfind s t start with
    | none => false
    | some pos =>
      if before_ok s pos && after_ok s t pos then true
      else trigger_loop s t (pos + 1) fuel

/-- contains_trigger_word (src/main.py lines 77-111): lowercase the content
and scan each trigger's occurrences for a standalone match. -/
def contains_trigger_word (content : String) : Bool :=
  rep_triggers.any (fun trigger =>
    trigger_loop (content.toList.map Char.toLower) trigger.toList 0
      ((content.toList.map Char.toLower).length + 1))

theorem trigger_loop_zero (s t : List Char) (start : Nat) :
    trigger_loop s t start 0 = false := rfl

theorem trigger_loop_succ (s t : List Char) (start fuel : Nat) :
    trigger_loop s t start (fuel + 1) =
      (match pyfind s t start with
       | none => false
       | some pos =>
         if before_ok s pos && after_ok s t pos then true
         else trigger_loop s t (pos + 1) fuel) := rfl

theorem findIn_some (t hay : List Char) (p : Nat) (h : findIn t hay = some p) :
    occursAt hay t p ∧ ∀ q, q < p → ¬ occursAt hay t q := by
  induction hay generalizing p with
  | nil =>
    unfold findIn at h
    split at h
    · next ht =>
      cases h
      subst ht
      exact ⟨rfl, fun q hq => absurd hq (Nat.not_lt_zero q)⟩
    · cases h
  | cons ch rest ih =>
    unfold findIn at h
    split at h
    · next hocc =>
      cases h
      exact ⟨hocc, fun q hq => absurd hq (Nat.not_lt_zero q)⟩
    · next hocc =>
      rcases Option.map_eq_some'.mp h with ⟨n, hn, hp⟩
      subst hp
      obtain ⟨h1, h2⟩ := ih n hn
      refine ⟨h1, ?_⟩
      intro q hq
      cases q with
      | zero => exact fun hc => hocc hc
      | succ q1 => exact fun hc => h2 q1 (by omega) hc

theorem findIn_none (t hay : List Char) (h : findIn t hay = none) (q : Nat) :
    ¬ occursAt hay t q := by
  induction hay generalizing q with
  | nil =>
    unfold findIn at h
    split at h
    · cases h
    · next ht =>
      intro hc
      unfold occursAt at hc
      rw [List.drop_nil, List.take_nil] at hc
      exact ht hc.symm
  | cons ch rest ih =>
    unfold findIn at h
    split at h
    · cases h
    · next hocc =>
      have hr : findIn t rest = none := Option.map_eq_none'.mp h
      intro hc
      cases q with
      | zero => exact hocc hc
      | succ q1 => exact ih hr q1 hc

theorem occursAt_bound (s t : List Char) (p : Nat) (ht : t ≠ []) (h : occursAt s t p) :
    p + t.length ≤ s.length := by
  have hlen := congrArg List.length h
  rw [List.length_take, List.length_drop] at hlen
  have h1 : t.length ≤ s.length - p := by
    rw [← hlen]
    exact min_le_right _ _
  have h2 : 0 < t.length := List.length_pos.mpr ht
  omega

theorem pyfind_some (s t : List Char) (start p : Nat) (h : pyfind s t start = some p) :
    start ≤ p ∧ occursAt s t p ∧ ∀ q, start ≤ q → q < p → ¬ occursAt s t q := by
  unfold pyfind at h
  rcases Option.map_eq_some'.mp h with ⟨n, hn, hp⟩
  subst hp
  obtain ⟨h1, h2⟩ := findIn_some t (s.drop start) n hn
  have hocc : occursAt s t (n + start) := by
    unfold occursAt at h1 ⊢
    rw [List.drop_drop] at h1
    rw [Nat.add_comm start n] at h1
    exact h1
  refine ⟨by omega, hocc, ?_⟩
  intro q hq1 hq2 hc
  have hc2 : occursAt (s.drop start) t (q - start) := by
    unfold occursAt at hc ⊢
    rw [List.drop_drop]
    have he : start + (q - start) = q := by omega
    rw [he]
    exact hc
  exact h2 (q - start) (by omega) hc2

theorem pyfind_none (s t : List Char) (start : Nat) (h : pyfind s t start = none)
    (q : Nat) (hq : start ≤ q) : ¬ occursAt s t q := by
  unfold pyfind at h
  have hr : findIn t (s.drop start) = none := Option.map_eq_none'.mp h
  intro hc
  apply findIn_none t (s.drop start) hr (q - start)
  unfold occursAt at hc ⊢
  rw [List.drop_drop]
  have he : start + (q - start) = q := by omega
  rw [he]
  exact hc

theorem trigger_loop_iff (s t : List Char) (ht : t ≠ []) :
    ∀ fuel start, s.length + 1 - start ≤ fuel →
      (trigger_loop s t start fuel = true ↔
        ∃ p, start ≤ p ∧ occursAt s t p ∧
          before_ok s p = true ∧ after_ok s t p = true) := by
  intro fuel
  induction fuel with
  | zero =>
    intro start hle
    rw [trigger_loop_zero]
    constructor
    · intro h
      cases h
    · rintro ⟨p, hp, hocc, -, -⟩
      have hb := occursAt_bound s t p ht hocc
      have htl : 0 < t.length := List.length_pos.mpr ht
      omega
  | succ fuel ih =>
    intro start hle
    rw [trigger_loop_succ]
    split
    · next heq =>
      constructor
      · intro h
        cases h
      · rintro ⟨p, hp, hocc, -, -⟩
        exact absurd hocc (pyfind_none s t start heq p hp)
    · next pos heq =>
      obtain ⟨hsp, hocc, hmin⟩ := pyfind_some s t start pos heq
      have hb := occursAt_bound s t pos ht hocc
      have htl : 0 < t.length := List.length_pos.mpr ht
      by_cases hok : (before_ok s pos && after_ok s t pos) = true
      · rw [if_pos hok]
        simp only [Bool.and_eq_true] at hok
        constructor
        · intro _
          exact ⟨pos, hsp, hocc, hok.1, hok.2⟩
        · intro _
          rfl
      · rw [if_neg hok]
        rw [ih (pos + 1) (by omega)]
        constructor
        · rintro ⟨p, hp, h1, h2, h3⟩
          exact ⟨p, by omega, h1, h2, h3⟩
        · rintro ⟨p, hp, h1, h2, h3⟩
          refine ⟨p, ?_, h1, h2, h3⟩
          rcases Nat.lt_or_ge p pos with hlt | hge
          · exact absurd h1 (hmin p hp hlt)
          · rcases Nat.eq_or_lt_of_le hge with heq2 | hlt2
            · subst heq2
              refine absurd ?_ hok
              simp [h2, h3]
            · omega

theorem isAlphanum_false_of_isWhitespace (ch : Char) (h : ch.isWhitespace = true) :
    ch.isAlphanum = false := by
  rw [Char.isWhitespace] at h
  simp only [Bool.or_eq_true, decide_eq_true_eq] at h
  rcases h with ((h | h) | h) | h <;> subst h <;> decide

theorem whitespace_or_not_alnum (ch : Char) :
    (ch.isWhitespace || !ch.isAlphanum) = !ch.isAlphanum := by
  cases hw : ch.isWhitespace
  · rw [Bool.false_or]
  · rw [isAlphanum_false_of_isWhitespace ch hw]
    rfl

theorem before_ok_iff (s : List Char) (p : Nat) (hp : p ≤ s.length) :
    before_ok s p = true ↔
      (p = 0 ∨ ∃ ch, s[p - 1]? = some ch ∧ ch.isAlphanum = false) := by
  cases p with
  | zero => simp [before_ok]
  | succ q =>
    have hq : q < s.length := by omega
    obtain ⟨ch, hch⟩ : ∃ ch, s[q]? = some ch := ⟨_, List.getElem?_eq_getElem hq⟩
    simp [before_ok, hch, whitespace_or_not_alnum]

theorem after_ok_iff (s t : List Char) (p : Nat) :
    after_ok s t p = true ↔
      (s.length ≤ p + t.length ∨
        ∃ ch, s[p + t.length]? = some ch ∧ ch.isAlphanum = false) := by
  unfold after_ok
  by_cases hlen : s.length ≤ p + t.length
  · simp [hlen]
  · have hq : p + t.length < s.length := by omega
    obtain ⟨ch, hch⟩ : ∃ ch, s[p + t.length]? = some ch := ⟨_, List.getElem?_eq_getElem hq⟩
    simp [hlen, hch, whitespace_or_not_alnum]

/-- C5: the trigger detector fires exactly when some trigger phrase occurs in
the lowercased text flanked on both sides by a non-alphanumeric character or
a string boundary; in particular it is false on "I went to a party" and true
on "ty for the help". -/
theorem c5_trigger_word_boundary :
    (∀ content : String, contains_trigger_word content = true ↔
      ∃ t ∈ rep_triggers, ∃ p : Nat,
        occursAt (content.toList.map Char.toLower) t.toList p ∧
        (p = 0 ∨ ∃ ch, (content.toList.map Char.toLower)[p - 1]? = some ch ∧
          ch.isAlphanum = false) ∧
        ((content.toList.map Char.toLower).length ≤ p + t.toList.length ∨
          ∃ ch, (content.toList.map Char.toLower)[p + t.toList.length]? = some ch ∧
            ch.isAlphanum = false)) ∧
    contains_trigger_word ("I went to a party") = false ∧
    contains_trigger_word ("ty for the help") = true := by
  refine ⟨?_, by decide, by decide⟩
  intro content
  have hne : ∀ t ∈ rep_triggers, t.toList ≠ [] := by decide
  unfold contains_trigger_word
  rw [List.any_eq_true]
  constructor
  · rintro ⟨t, htmem, hloop⟩
    have ht := hne t htmem
    rw [trigger_loop_iff _ _ ht _ 0 (by omega)] at hloop
    obtain ⟨p, -, hocc, hbef, haft⟩ := hloop
    have hb := occursAt_bound _ _ p ht hocc
    exact ⟨t, htmem, p, hocc,
      (before_ok_iff _ p (by omega)).mp hbef,
      (after_ok_iff _ _ p).mp haft⟩
  · rintro ⟨t, htmem, p, hocc, hbef, haft⟩
    have ht := hne t htmem
    have hb := occursAt_bound _ _ p ht hocc
    refine ⟨t, htmem, ?_⟩
    rw [trigger_loop_iff _ _ ht _ 0 (by omega)]
    exact ⟨p, Nat.zero_le p, hocc,
      (before_ok_iff _ p (by omega)).mpr hbef,
      (after_ok_iff _ _ p).mpr haft⟩

/-- The page-entry computation of create_leaderboard_embed
(src/main.py lines 590-604), parametric in the leaderboard source: `fetch`
stands for get_leaderboard called with the given limit, `page` is 1-based. -/
def create_leaderboard_page {α : Type} (fetch : Nat → List α)
    (page entries_per_page : Nat) : List α :=
  let offset := (page - 1) * entries_per_page
  let leaderboard := fetch (entries_per_page * page)
  if offset < leaderboard.length then (leaderboard.drop offset).take entries_per_page
  else []

/-- next_button (src/main.py lines 436-453): increment the page, fetch with
limit entries_per_page * page, and when fewer than
entries_per_page * (page - 1) + 1 entries come back, restore the page and
signal end of list (the Bool is false exactly on the "reached the end"
message). -/
def next_button {α : Type} (fetch : Nat → List α) (entries_per_page page : Nat) :
    Nat × Bool :=
  let page1 := page + 1
  let leaderboard := fetch (entries_per_page * page1)
  if leaderboard.length < entries_per_page * (page1 - 1) + 1 then (page1 - 1, false)
  else (page1, true)

/-- C7: the paginated consumer requests limit = s * p and shows the slice
[(p-1)*s : p*s] of the result; next_button advances from page p to p + 1
exactly when at least (p)*s + 1 entries come back for the requested page
p + 1, and otherwise signals end of list with the cursor restored to p —
equivalently, it refuses to advance exactly when the page p + 1 slice is
empty. -/
theorem c7_pagination_contract {α : Type} (fetch : Nat → List α) (s p : Nat)
    (hs : 0 < s) :
    create_leaderboard_page fetch p s = ((fetch (s * p)).drop ((p - 1) * s)).take s ∧
    next_button fetch s p =
      (if (fetch (s * (p + 1))).length < s * p + 1 then (p, false) else (p + 1, true)) ∧
    ((next_button fetch s p).2 = false ↔ create_leaderboard_page fetch (p + 1) s = []) := by
  refine ⟨?_, ?_, ?_⟩
  · unfold create_leaderboard_page
    by_cases h : (p - 1) * s < (fetch (s * p)).length
    · rw [if_pos h]
    · rw [if_neg h]
      rw [List.drop_eq_nil_of_le (by omega), List.take_nil]
  · unfold next_button
    simp only [Nat.add_sub_cancel]
  · unfold next_button create_leaderboard_page
    simp only [Nat.add_sub_cancel]
    by_cases h : (fetch (s * (p + 1))).length < s * p + 1
    · rw [if_pos h]
      simp only [true_iff]
      rw [if_neg (by rw [Nat.mul_comm p s]; omega : ¬ p * s < (fetch (s * (p + 1))).length)]
    · rw [if_neg h]
      simp only [false_iff]
      have h2 : p * s < (fetch (s * (p + 1))).length := by
        rw [Nat.mul_comm p s]
        omega
      rw [if_pos h2]
      have h3 : ¬ ((fetch (s * (p + 1))).drop (p * s)).take s = [] := by
        intro hnil
        have h1 : (((fetch (s * (p + 1))).drop (p * s)).take s).length = 0 := by
          rw [hnil]
          rfl
        rw [List.length_take, List.length_drop] at h1
        rcases Nat.min_eq_zero_iff.mp h1 with h4 | h4 <;> omega
      exact iff_of_false (by simp) h3

/-- Witness for C7: page size 10 over a source with 12 entries, on page 1. -/
theorem c7_witness :
    (0 < 10) ∧
    create_leaderboard_page (fun n => List.range (min n 12)) 1 10 =
      ((List.range (min (10 * 1) 12)).drop ((1 - 1) * 10)).take 10 ∧
    (next_button (fun n => List.range (min n 12)) 10 2).2 = false :=
  ⟨by decide,
   (c7_pagination_contract (fun n => List.range (min n 12)) 10 1 (by decide)).1,
   by
    have h := (c7_pagination_contract (fun n => List.range (min n 12)) 10 2 (by decide)).2.1
    rw [h]
    decide⟩


/-- Entry shape returned by get_top_channels:
{'id': k, 'name': ..., 'count': ...}. -/
structure TopChannel where
  id : String
  name : String
  count : Int
deriving DecidableEq, Repr

/-- Stable insertion into a count-descending list: the new element goes in
front of the first element whose count is not greater, so earlier elements
with equal counts stay first.  Together with `sortByCountDesc` this models
Python's stable `list.sort(key=count, reverse=True)`. -/
def insertByCountDesc (x : TopChannel) : List TopChannel -> List TopChannel
  | [] => [x]
  | y :: ys => if y.count <= x.count then x :: y :: ys else y :: insertByCountDesc x ys

/-- Stable sort by count descending (insertion sort). -/
def sortByCountDesc : List TopChannel -> List TopChannel
  | [] => []
  | x :: xs => insertByCountDesc x (sortByCountDesc xs)

/-- get_top_channels (src/utils/firebase-manager.py lines 236-265 and
src/main.py lines 297-316): read the profile, turn the insertion-ordered
channels dict into entries, stable-sort by count descending, truncate to
limit. -/
def get_top_channels (s : Store) (guild_id user_id : String) (limit : Nat) :
    List TopChannel :=
  let profile := get_user_profile s guild_id user_id
  let channel_list := profile.channels.map
    (fun kv => TopChannel.mk kv.1 kv.2.name kv.2.count)
  (sortByCountDesc channel_list).take limit

theorem mem_insertByCountDesc (x z : TopChannel) (l : List TopChannel)
    (h : z ∈ insertByCountDesc x l) : z = x ∨ z ∈ l := by
  induction l with
  | nil =>
    rw [insertByCountDesc] at h
    exact Or.inl (List.mem_singleton.mp h)
  | cons y ys ih =>
    rw [insertByCountDesc] at h
    split at h
    · exact List.mem_cons.mp h
    · rcases List.mem_cons.mp h with rfl | h2
      · exact Or.inr (List.mem_cons.mpr (Or.inl rfl))
      · rcases ih h2 with h3 | h3
        · exact Or.inl h3
        · exact Or.inr (List.mem_cons_of_mem y h3)

theorem insertByCountDesc_pairwise (x : TopChannel) (l : List TopChannel)
    (hl : l.Pairwise (fun a b => b.count ≤ a.count)) :
    (insertByCountDesc x l).Pairwise (fun a b => b.count ≤ a.count) := by
  induction l with
  | nil => simp [insertByCountDesc]
  | cons y ys ih =>
    obtain ⟨hy, hys⟩ := List.pairwise_cons.mp hl
    rw [insertByCountDesc]
    split
    · next hc =>
      refine List.pairwise_cons.mpr ⟨?_, hl⟩
      intro z hz
      rcases List.mem_cons.mp hz with rfl | hz
      · exact hc
      · exact le_trans (hy z hz) hc
    · next hc =>
      refine List.pairwise_cons.mpr ⟨?_, ih hys⟩
      intro z hz
      rcases mem_insertByCountDesc x z ys hz with rfl | hz
      · omega
      · exact hy z hz

theorem sortByCountDesc_pairwise (l : List TopChannel) :
    (sortByCountDesc l).Pairwise (fun a b => b.count ≤ a.count) := by
  induction l with
  | nil => simp [sortByCountDesc]
  | cons x xs ih => exact insertByCountDesc_pairwise x (sortByCountDesc xs) ih

theorem filter_insertByCountDesc (x : TopChannel) (c : Int) (l : List TopChannel) :
    (insertByCountDesc x l).filter (fun e => decide (e.count = c)) =
      (x :: l).filter (fun e => decide (e.count = c)) := by
  induction l with
  | nil => rfl
  | cons y ys ih =>
    rw [insertByCountDesc]
    split
    · rfl
    · next hc =>
      have hxy : x.count < y.count := by omega
      by_cases hyc : y.count = c
      · have hxc : ¬ x.count = c := by omega
        simp [List.filter_cons, ih, hyc, hxc]
      · simp [List.filter_cons, ih, hyc]

theorem sortByCountDesc_filter (l : List TopChannel) (c : Int) :
    (sortByCountDesc l).filter (fun e => decide (e.count = c)) =
      l.filter (fun e => decide (e.count = c)) := by
  induction l with
  | nil => rfl
  | cons x xs ih =>
    rw [sortByCountDesc, filter_insertByCountDesc, List.filter_cons, List.filter_cons, ih]

/-- C8: get_top_channels is the limit-truncation of a stable descending sort
of the profile's insertion-ordered channels breakdown: the result of the sort
is sorted by count descending and, for every count value, preserves the
original insertion order of the entries having that count (the
characterisation of a stable sort); the profile {A:2, B:5, C:5} inserted in
that order yields top-2 = [B, C]. -/
theorem c8_top_channels_stable_sort :
    (∀ s g u limit, get_top_channels s g u limit =
      (sortByCountDesc ((get_user_profile s g u).channels.map
        (fun kv => TopChannel.mk kv.1 kv.2.name kv.2.count))).take limit) ∧
    (∀ l : List TopChannel,
      (sortByCountDesc l).Pairwise (fun a b => b.count ≤ a.count)) ∧
    (∀ (l : List TopChannel) (c : Int),
      (sortByCountDesc l).filter (fun e => decide (e.count = c)) =
        l.filter (fun e => decide (e.count = c))) ∧
    get_top_channels (Store.mk [((user_doc_id ("g") ("u")),
        UserRec.mk ("g") ("u") 12
          [(("A"), ChannelEntry.mk ("ch-a") 2), (("B"), ChannelEntry.mk ("ch-b") 5),
           (("C"), ChannelEntry.mk ("ch-c") 5)] [])] []) ("g") ("u") 2 =
      [TopChannel.mk ("B") ("ch-b") 5, TopChannel.mk ("C") ("ch-c") 5] :=
  ⟨fun s g u limit => rfl,
   sortByCountDesc_pairwise,
   sortByCountDesc_filter,
   by decide⟩

end RepBot
